import Mathlib

/-!
# Verification of the permit extraction and lifecycle subsystem

Shallow embedding of `src/backend/permits/models.py`,
`src/backend/permits/views.py` and `src/backend/permits/ai_extraction.py`.

Dates are modelled as proleptic-Gregorian calendar dates; ordering,
subtraction and `timedelta` addition go through a day-number conversion
(the same model `datetime.date` uses internally via `toordinal`).
Python string truthiness (`None` and `""` are falsy) is modelled by
`truthy`; Python's `in` on strings is `strContains`.
-/

namespace Permits

/-- A calendar date, as carried by Python `datetime.date`. -/
structure Date where
  year : Nat
  month : Nat
  day : Nat
deriving DecidableEq, Repr

/-- Leap-year rule of the Gregorian calendar (`calendar.isleap`). -/
def isLeap (y : Nat) : Bool :=
  y % 4 == 0 && (y % 100 != 0 || y % 400 == 0)

/-- Number of days in a month (`datetime`'s `_days_in_month`). -/
def daysInMonth (y m : Nat) : Nat :=
  if m = 2 then (if isLeap y then 29 else 28)
  else if m = 4 ∨ m = 6 ∨ m = 9 ∨ m = 11 then 30
  else 31

/-- Day number of a civil date (Hinnant's `days_from_civil`, shifted to
stay in `Nat`; only differences and sums of day numbers are used, so the
constant offset is irrelevant).  This models `datetime.date.toordinal`. -/
def dayNumber (dt : Date) : Nat :=
  let y := if dt.month ≤ 2 then dt.year - 1 else dt.year
  let era := y / 400
  let yoe := y - era * 400
  let mp := if dt.month > 2 then dt.month - 3 else dt.month + 9
  let doy := (153 * mp + 2) / 5 + (dt.day - 1)
  let doe := yoe * 365 + yoe / 4 - yoe / 100 + doy
  era * 146097 + doe

/-- Inverse of `dayNumber` (Hinnant's `civil_from_days`); models
`datetime.date.fromordinal`, used for `date + timedelta(days=n)`. -/
def dateOfDayNumber (z : Nat) : Date :=
  let era := z / 146097
  let doe := z % 146097
  let yoe := (doe - doe / 1460 + doe / 36524 - doe / 146096) / 365
  let y := yoe + era * 400
  let doy := doe - (365 * yoe + yoe / 4 - yoe / 100)
  let mp := (5 * doy + 2) / 153
  let d := doy - (153 * mp + 2) / 5 + 1
  let m := if mp < 10 then mp + 3 else mp - 9
  { year := if m ≤ 2 then y + 1 else y, month := m, day := d }

/-- `dt + timedelta(days = n)`. -/
def addDays (dt : Date) (n : Nat) : Date :=
  dateOfDayNumber (dayNumber dt + n)

/-- `(a - b).days` of two Python dates. -/
def daysDiff (a b : Date) : Int :=
  (dayNumber a : Int) - (dayNumber b : Int)

/- ## String helpers (Python semantics) -/

/-- Python truthiness of an optional string: `None` and `""` are falsy. -/
def truthy : Option String → Bool
  | none => false
  | some s => !s.isEmpty

/-- Python `a or b` where `a` is an optional string and `b` a string. -/
def pyOr (a : Option String) (b : String) : String :=
  if truthy a then a.getD "" else b

/-- Python `a or b` on two optional strings. -/
def pyOrOpt (a b : Option String) : Option String :=
  if truthy a then a else b

/-- Python `s.upper()` (ASCII; all keywords in the source are ASCII). -/
def strUpper (s : String) : String :=
  ⟨s.data.map Char.toUpper⟩

/-- Does `cs` start with `needle`? -/
def startsWithChars : List Char → List Char → Bool
  | _, [] => true
  | [], _ :: _ => false
  | c :: cs, d :: ds => c == d && startsWithChars cs ds

/-- Substring containment on character lists. -/
def containsChars : List Char → List Char → Bool
  | [], needle => needle.isEmpty
  | c :: t, needle => startsWithChars (c :: t) needle || containsChars t needle

/-- Python `needle in hay` on strings (substring containment). -/
def strContains (hay needle : String) : Bool :=
  containsChars hay.data needle.data

/-- Digit character for `n < 10`. -/
def digitChar (n : Nat) : Char := Char.ofNat (48 + n)

/-- Fixed-width zero-padded decimal rendering (width `w`). -/
def padNat (w n : Nat) : List Char :=
  (List.range w).reverse.map (fun i => digitChar (n / 10 ^ i % 10))

/-- `dt.strftime('%Y-%m-%d')`. -/
def formatDate (dt : Date) : String :=
  ⟨padNat 4 dt.year ++ '-' :: (padNat 2 dt.month ++ '-' :: padNat 2 dt.day)⟩

/-- Decimal rendering of a `Nat` (fuel-based). -/
def natStrAux : Nat → Nat → List Char
  | 0, _ => []
  | fuel + 1, n => if n < 10 then [digitChar n] else natStrAux fuel (n / 10) ++ [digitChar (n % 10)]

/-- Decimal rendering of a `Nat`, as Python `str(n)`. -/
def natStr (n : Nat) : String := ⟨natStrAux (n + 1) n⟩

/-- Split a character list at `'-'`. -/
def splitDash : List Char → List (List Char)
  | [] => [[]]
  | c :: rest =>
    let r := splitDash rest
    if c = '-' then [] :: r
    else
      match r with
      | [] => [[c]]
      | h :: t => (c :: h) :: t

/-- Value of a digit string. -/
def digitsVal (cs : List Char) : Nat :=
  cs.foldl (fun a c => a * 10 + (c.toNat - 48)) 0

/-- Are all characters decimal digits (and the list nonempty)? -/
def allDigits (cs : List Char) : Bool :=
  !cs.isEmpty && cs.all (fun c => c.isDigit)

/-- `datetime.strptime(s, '%Y-%m-%d').date()`: four-digit year, one- or
two-digit month and day separated by `-`, full match, and the triple must
be a real calendar date (otherwise `ValueError`). -/
def parseDate (s : String) : Option Date :=
  match splitDash s.data with
  | [ys, ms, ds] =>
    if allDigits ys && ys.length == 4 && allDigits ms && ms.length ≤ 2
        && allDigits ds && ds.length ≤ 2 then
      let y := digitsVal ys
      let m := digitsVal ms
      let d := digitsVal ds
      if 1 ≤ y && 1 ≤ m && m ≤ 12 && 1 ≤ d && d ≤ daysInMonth y m then
        some { year := y, month := m, day := d }
      else none
    else none
  | _ => none

/- ## `ai_extraction.py`: extracted record and pipeline stages -/

/-- The loosely-typed field map produced by `validate_and_parse_json` and
refined by the later stages (`none` models both an absent key and an
explicit `null`; `get` treats them identically). -/
structure ExtractedData where
  license_type : Option String := none
  license_no : Option String := none
  issue_date : Option String := none
  expiry_date : Option String := none
  issued_by : Option String := none
  renewal_url : Option String := none
  needs_review : Bool := false
  inference_notes : Option String := none
deriving DecidableEq, Repr

/-- `PermitDataExtractor.PERMIT_POLICY` (insertion-ordered dict). -/
def PERMIT_POLICY : List (String × Nat) :=
  [("TOBACCO", 365), ("MV REPAIR", 365), ("MOTOR VEHICLE", 365),
   ("FIRE SAFETY", 1095), ("FIRE SAFETY PERMIT", 1095),
   ("OPERATING PERMIT", 365), ("BUSINESS LICENSE", 365),
   ("AIR POLLUTION", 365), ("ENVIRONMENTAL", 1095)]

def eclipseUrl : String := "https://eclipse.phila.gov/phillylmsprod/pub/lms/Login.aspx"
def citizenserveUrl : String :=
  "https://www4.citizenserve.com/Portal/PortalController?Action=showHomePage&ctzPagePrefix=Portal_&installationID=173"
def mypathUrl : String := "https://mypath.pa.gov/"
def greenportUrl : String := "https://greenport.pa.gov/gpl/"

/-- `PermitDataExtractor.RENEWAL_URL_MAPPING` (insertion-ordered dict). -/
def RENEWAL_URL_MAPPING : List (String × String) :=
  [("MOTOR VEHICLE", eclipseUrl), ("MV REPAIR", eclipseUrl),
   ("SCALES AND SCANNERS", eclipseUrl), ("COMMERCIAL ACTIVITY", eclipseUrl),
   ("AIR", citizenserveUrl), ("AIR POLLUTION", citizenserveUrl),
   ("AMUSEMENT", eclipseUrl), ("FOOD", eclipseUrl),
   ("HAZMAT", eclipseUrl), ("HAZARDOUS", eclipseUrl),
   ("TOBACCO", mypathUrl), ("SALES TAX", mypathUrl), ("RETAIL", mypathUrl),
   ("UNDERGROUND STORAGE TANK", greenportUrl), ("UST", greenportUrl),
   ("TANK", greenportUrl)]

/-- First keyword of the mapping contained in `lt`, in dict order. -/
def lookupUrl (lt : String) : List (String × String) → Option String
  | [] => none
  | (k, u) :: rest => if strContains lt k then some u else lookupUrl lt rest

/-- `any(word in license_type for word in words)`. -/
def anyContains (lt : String) (words : List String) : Bool :=
  words.any (fun w => strContains lt w)

/-- `PermitDataExtractor.assign_renewal_url_based_on_type`; the source
reads only `extracted_data.get('license_type')`, passed here directly. -/
def assign_renewal_url_based_on_type (license_type : Option String) : Option String :=
  let lt := strUpper (pyOr license_type "")
  match lookupUrl lt RENEWAL_URL_MAPPING with
  | some u => some u
  | none =>
    if anyContains lt ["MOTOR VEHICLE", "MV REPAIR", "VEHICLE REPAIR"] then
      some eclipseUrl
    else if anyContains lt ["SCALES AND SCANNERS", "COMMERCIAL ACTIVITY", "SCALES", "SCANNERS"] then
      some eclipseUrl
    else if strContains lt "LICENSE" && anyContains lt ["AIR", "POLLUTION", "APL"] then
      some citizenserveUrl
    else if anyContains lt ["SALES TAX", "SALESTAX", "RETAIL", "DEPARTMENT OF REVENUE"] then
      some mypathUrl
    else if strContains lt "LICENSE" && anyContains lt ["FOOD", "EATING", "RESTAURANT"] then
      some eclipseUrl
    else if anyContains lt ["HAZARDOUS", "HAZMAT", "3335"] then
      some eclipseUrl
    else none

/-- Loop body of `apply_policy_fallback`: on the first keyword contained
in the uppercased license type, parse the issue date and add the policy
duration; a `strptime` failure falls through to the next keyword. -/
def policyLoop (d : ExtractedData) (lt : String) : List (String × Nat) → ExtractedData
  | [] => d
  | (key, days) :: rest =>
    if strContains lt key then
      match parseDate (d.issue_date.getD "") with
      | some dt =>
        { d with
          expiry_date := some (formatDate (addDays dt days)),
          inference_notes := some ("Expiry computed via policy: " ++ key ++ " (" ++ natStr days ++ " days)") }
      | none => policyLoop d lt rest
    else policyLoop d lt rest

/-- `PermitDataExtractor.apply_policy_fallback`. -/
def apply_policy_fallback (d : ExtractedData) : ExtractedData :=
  if truthy d.expiry_date then d
  else if !truthy d.issue_date then d
  else policyLoop d (strUpper (pyOr d.license_type "")) PERMIT_POLICY

/-- Heuristic date backfill of `extract_data_with_ai`: runs only when
raw text is available and a date is missing, and fills each missing date
from the heuristic engine's findings (`hExp`/`hIss` stand for
`infer_dates_from_text(raw).get('expiry_date'/'issue_date')`; the
theorems quantify over them and so cover every heuristic output). -/
def heuristicBackfill (d : ExtractedData) (raw hExp hIss : Option String) : ExtractedData :=
  let runH := truthy raw && (!truthy d.expiry_date || !truthy d.issue_date)
  let d2 := if runH && !truthy d.expiry_date && truthy hExp then
      { d with expiry_date := hExp } else d
  if runH && !truthy d2.issue_date && truthy hIss then
    { d2 with issue_date := hIss } else d2

/-- The `extraction_path` suffix added when the heuristic filled the
expiry date. -/
def heuristicPathSuffix (d : ExtractedData) (raw hExp : Option String) (path : String) : String :=
  if truthy raw && (!truthy d.expiry_date || !truthy d.issue_date)
      && !truthy d.expiry_date && truthy hExp then
    path ++ " + heuristic"
  else path

/-- The "FINAL SAFETY CHECK" of `extract_data_with_ai`: re-run the
renewal-URL classifier when the URL is still unset and a license type is
known. -/
def finalUrlSafetyCheck (d : ExtractedData) : ExtractedData :=
  if !truthy d.renewal_url && truthy d.license_type then
    match assign_renewal_url_based_on_type d.license_type with
    | some u =>
      { d with
        renewal_url := some u,
        inference_notes :=
          match d.inference_notes with
          | some n => some (n ++ " | Renewal URL assigned via final fallback")
          | none => some "Renewal URL assigned via final fallback" }
    | none => d
  else d

/-- The final `needs_review`/`inference_notes` assignment of
`extract_data_with_ai` (the Review Gate: `needs_review` is recomputed as
"no usable expiry", and notes are defaulted). -/
def finalizeReview (d : ExtractedData) (path : String) : ExtractedData :=
  let d6 := { d with needs_review := !truthy d.expiry_date }
  if d6.needs_review then
    match d6.inference_notes with
    | none => { d6 with inference_notes := some "Expiry date not found; please enter manually" }
    | some _ => d6
  else
    match d6.inference_notes with
    | none => { d6 with inference_notes := some ("Extracted via " ++ path) }
    | some _ => d6

/-- The post-parse portion of `extract_data_with_ai` (everything after
`validate_and_parse_json`): the unconditional renewal-URL override, the
heuristic date backfill, the policy fallback, the final renewal-URL
safety check, and the `needs_review`/`inference_notes` finalization.
`d0` is the parsed model response; `raw` is the raw text handed to the
heuristics (`None` on the image path); `path` is the `extraction_path`
string. -/
def extract_post_parse (d0 : ExtractedData) (raw : Option String)
    (hExp hIss : Option String) (path : String) : ExtractedData :=
  let d1 := { d0 with renewal_url := assign_renewal_url_based_on_type d0.license_type }
  let d3 := heuristicBackfill d1 raw hExp hIss
  let path := heuristicPathSuffix d1 raw hExp path
  let d4 := apply_policy_fallback d3
  let d5 := finalUrlSafetyCheck d4
  finalizeReview d5 path

/-- The `except` branch of `extract_data_with_ai`: any exception in the
call/parse pipeline is caught and returned as an all-null record. -/
def extract_data_with_ai_failure (errMsg : String) : ExtractedData :=
  { license_type := none, license_no := none, issue_date := none,
    expiry_date := none, issued_by := none, renewal_url := none,
    needs_review := true,
    inference_notes := some ("Extraction failed: " ++ errMsg) }

/- ## `models.py`: the persisted entities and the derived status -/

/-- A persisted `Permit` row.  `expiry_date` is typed `Option Date` so
that the NOT NULL column constraint is a property proved of the
operations rather than imposed by the embedding. -/
structure PermitRow where
  id : Nat
  name : String
  number : String
  issue_date : Option Date
  expiry_date : Option Date
  issued_by : String
  renewal_url : Option String
  document : String
  facility : Nat
  is_active : Bool
deriving DecidableEq, Repr

/-- A persisted `PermitHistory` row. -/
structure HistoryRow where
  permit : Nat
  action : String
  notes : String
  document_url : Option String
deriving DecidableEq, Repr

/-- The permit tables (history newest-first, as the default ordering). -/
structure Store where
  permits : List PermitRow
  history : List HistoryRow
deriving DecidableEq, Repr

/-- `Permit.status` for an active-flag and a (non-null) expiry date. -/
def permitStatus (isActive : Bool) (expiry today : Date) : String :=
  if !isActive then "superseded"
  else
    let days := daysDiff expiry today
    if days < 0 then "expired"
    else if days ≤ 30 then "expiring"
    else "active"

/-- `Permit.status` on a stored row: the property reads `expiry_date`
only when the row is active; a null expiry there would raise, modelled
as `none`. -/
def rowStatus (p : PermitRow) (today : Date) : Option String :=
  if !p.is_active then some "superseded"
  else p.expiry_date.map (fun e => permitStatus true e today)

/- ## `views.py`: upload (create), renew, stats -/

/-- The `suggested` block of a needs-review response. -/
structure Suggested where
  license_type : Option String
  license_no : Option String
  issue_date : Option String
  expiry_date : Option String
  issued_by : Option String
  renewal_url : Option String
deriving DecidableEq, Repr

/-- Responses of `PermitUploadView.post`. -/
inductive UploadResponse where
  | needsReview (message : String) (suggested : Suggested)
  | created (permitId : Nat)
  | serverError
deriving DecidableEq, Repr

/-- Responses of `PermitViewSet.renew_permit`. -/
inductive RenewResponse where
  | notFound
  | needsReview (message : String) (permitId : Nat) (suggested : Suggested)
  | ok (permitId : Nat)
  | serverError
deriving DecidableEq, Repr

/-- The `suggested` payload built by the upload view. -/
def suggestedOf (d : ExtractedData) : Suggested :=
  { license_type := d.license_type, license_no := d.license_no,
    issue_date := d.issue_date, expiry_date := d.expiry_date,
    issued_by := d.issued_by, renewal_url := d.renewal_url }

/-- Fresh primary key for an insert. -/
def nextId (permits : List PermitRow) : Nat :=
  (permits.map (fun p => p.id)).foldr max 0 + 1

/-- The `Permit.objects.create` step of the upload view (with the
dates already parsed): the `number` fallback is `PERMIT-{count+1}`, and
the database UNIQUE constraint on `number` rejects a duplicate insert
(`IntegrityError`, caught by the outer handler as a 500). -/
def createPermit (s : Store) (d : ExtractedData) (facility : Nat) (fname : String)
    (issue : Option Date) (exp : Date) : UploadResponse × Store :=
  let number := pyOr d.license_no ("PERMIT-" ++ natStr (s.permits.length + 1))
  if s.permits.any (fun p => p.number == number) then (.serverError, s)
  else
    let pid := nextId s.permits
    let row : PermitRow :=
      { id := pid, name := pyOr d.license_type "Extracted Permit", number := number,
        issue_date := issue, expiry_date := some exp,
        issued_by := pyOr d.issued_by "Unknown Authority",
        renewal_url := d.renewal_url, document := fname,
        facility := facility, is_active := true }
    let renewalInfo :=
      if truthy d.renewal_url then "Renewal URL: " ++ d.renewal_url.getD ""
      else "No renewal URL extracted"
    let hist : HistoryRow :=
      { permit := pid, action := "Document uploaded and AI extracted",
        notes := d.inference_notes.getD ("AI extracted data from " ++ fname) ++ " | " ++ renewalInfo,
        document_url := some fname }
    (.created pid, { permits := s.permits ++ [row], history := hist :: s.history })

/-- `PermitUploadView.post`, from the point where the extraction result
`d` is available (file/facility validation and the extraction call
itself precede this in the source). -/
def uploadPost (s : Store) (d : ExtractedData) (facility : Nat) (fname : String) :
    UploadResponse × Store :=
  if d.needs_review then
    (.needsReview (d.inference_notes.getD "Some fields could not be extracted") (suggestedOf d), s)
  else
    let issue := if truthy d.issue_date then parseDate (d.issue_date.getD "") else none
    if truthy d.expiry_date then
      match parseDate (d.expiry_date.getD "") with
      | none =>
        (.needsReview "Expiry date format is invalid"
          { suggestedOf d with expiry_date := none }, s)
      | some exp => createPermit s d facility fname issue exp
    else
      (.needsReview "Expiry date is required but could not be extracted"
        { suggestedOf d with expiry_date := none }, s)

/-- The new `number` a renewal writes. -/
def renewNewNumber (d : ExtractedData) (p : PermitRow) : String :=
  pyOr d.license_no p.number

/-- The issue date a renewal writes: starts from the prior value, and is
replaced only when the extraction carries an issue-date string that
parses; a `strptime` failure is logged and ignored. -/
def renewIssueDate (d : ExtractedData) (p : PermitRow) : Option Date :=
  if truthy d.issue_date then
    match parseDate (d.issue_date.getD "") with
    | some dt => some dt
    | none => p.issue_date
  else p.issue_date

/-- The expiry date a renewal writes: same fallback scheme as the issue
date, starting from the row's current (required) expiry. -/
def renewExpiryDate (d : ExtractedData) (p : PermitRow) : Option Date :=
  if truthy d.expiry_date then
    match parseDate (d.expiry_date.getD "") with
    | some dt => some dt
    | none => p.expiry_date
  else p.expiry_date

/-- The `suggested` payload of the renewal needs-review response. -/
def renewSuggested (d : ExtractedData) (p : PermitRow) : Suggested :=
  { license_type := some (pyOr d.license_type p.name),
    license_no := some (pyOr d.license_no p.number),
    issue_date := d.issue_date, expiry_date := d.expiry_date,
    issued_by := some (pyOr d.issued_by p.issued_by),
    renewal_url := pyOrOpt d.renewal_url p.renewal_url }

/-- `PermitViewSet.renew_permit`, from the point where the extraction
result `d` is available.  A `save()` whose new number collides with a
different row violates the UNIQUE constraint (`IntegrityError`, caught
by the broad handler as a 500, leaving the row unchanged). -/
def renewPermit (s : Store) (pid : Nat) (d : ExtractedData) (fname : String) :
    RenewResponse × Store :=
  match s.permits.find? (fun p => p.id == pid) with
  | none => (.notFound, s)
  | some permit =>
    if d.needs_review then
      (.needsReview (d.inference_notes.getD "Some fields could not be extracted") pid
        (renewSuggested d permit), s)
    else
      let issue := renewIssueDate d permit
      let expiry := renewExpiryDate d permit
      let newNumber := renewNewNumber d permit
      let renewalUrl := pyOrOpt d.renewal_url permit.renewal_url
      let issuedBy := pyOr d.issued_by permit.issued_by
      if s.permits.any (fun q => q.id != pid && q.number == newNumber) then
        (.serverError, s)
      else
        let upd := fun (p : PermitRow) =>
          if p.id == pid then
            { p with
              number := newNumber,
              issue_date := issue,
              expiry_date := expiry,
              issued_by := issuedBy,
              renewal_url := renewalUrl,
              document := fname,
              is_active := true }
          else p
        let urlInfo :=
          if renewalUrl != permit.renewal_url then
            if truthy renewalUrl then " | Renewal URL updated: " ++ renewalUrl.getD ""
            else " | Renewal URL removed"
          else ""
        let expiryStr := match expiry with
          | some e => formatDate e
          | none => "None"
        let notes :=
          if newNumber ≠ permit.number then
            "Permit renewed. License number changed from " ++ permit.number ++ " to "
              ++ newNumber ++ ". New expiry: " ++ expiryStr ++ urlInfo
          else
            "Permit renewed. License number unchanged. New expiry: " ++ expiryStr ++ urlInfo
        let hist : HistoryRow :=
          { permit := pid, action := "Permit renewed (updated)", notes := notes,
            document_url := some fname }
        (.ok pid, { permits := s.permits.map upd, history := hist :: s.history })

/-- Result of `permit_stats`. -/
structure StatsResult where
  total : Nat
  active : Nat
  expiring : Nat
  expired : Nat
deriving DecidableEq, Repr

/-- `permit_stats`: counts over the active permits (optionally filtered
to one facility), bucketed by the derived status. -/
def permit_stats (permits : List PermitRow) (facility : Option Nat) (today : Date) :
    StatsResult :=
  let qs := permits.filter (fun p => p.is_active)
  let qs : List PermitRow := match facility with
    | some f => qs.filter (fun p => p.facility == f)
    | none => qs
  { total := qs.length,
    active := (qs.filter (fun p => rowStatus p today == some "active")).length,
    expiring := (qs.filter (fun p => rowStatus p today == some "expiring")).length,
    expired := (qs.filter (fun p => rowStatus p today == some "expired")).length }

/-- DRF `ModelViewSet.destroy` on a permit (hard delete through the
default route; cascades its history). -/
def destroyPermit (s : Store) (pid : Nat) : Store :=
  { permits := s.permits.filter (fun p => p.id ≠ pid),
    history := s.history.filter (fun h => h.permit ≠ pid) }

/-- Store states reachable from the empty store through the write
operations of `views.py`. -/
inductive Reachable : Store → Prop
  | empty : Reachable ⟨[], []⟩
  | upload (s : Store) (d : ExtractedData) (facility : Nat) (fname : String) :
      Reachable s → Reachable (uploadPost s d facility fname).2
  | renew (s : Store) (pid : Nat) (d : ExtractedData) (fname : String) :
      Reachable s → Reachable (renewPermit s pid d fname).2
  | destroy (s : Store) (pid : Nat) :
      Reachable s → Reachable (destroyPermit s pid)

/- ## Theorems -/

/-- C2: for every permit and every value of `today`, the derived status
is `superseded` when `is_active` is false; otherwise `expired` when the
expiry date is strictly before `today`; otherwise `expiring` when the
expiry date is at most 30 days after `today`; otherwise `active`
(date order and `+30 days` expressed on day numbers, which is how
`datetime.date` compares and subtracts). -/
theorem c2_status_derivation (isActive : Bool) (expiry today : Date) :
    permitStatus isActive expiry today =
      (if isActive = false then "superseded"
       else if dayNumber expiry < dayNumber today then "expired"
       else if dayNumber expiry ≤ dayNumber today + 30 then "expiring"
       else "active") := by
  cases isActive with
  | false => simp [permitStatus]
  | true =>
    have h1 : ((dayNumber expiry : Int) - (dayNumber today : Int) < 0)
        ↔ (dayNumber expiry < dayNumber today) := by omega
    have h2 : ((dayNumber expiry : Int) - (dayNumber today : Int) ≤ 30)
        ↔ (dayNumber expiry ≤ dayNumber today + 30) := by omega
    simp [permitStatus, daysDiff, h1, h2]

/-- C3 counterexample: a permit that is active and expires exactly today
has derived status `expiring`, not `expired` (the code classifies
`days_until_expiry = 0` into the `<= 30` branch). -/
theorem c3_counterexample :
    permitStatus true ⟨2025, 6, 15⟩ ⟨2025, 6, 15⟩ = "expiring" ∧
    permitStatus true ⟨2025, 6, 15⟩ ⟨2025, 6, 15⟩ ≠ "expired" := by
  decide

/-- C3 as amended: at the lower boundary an active permit whose expiry
date equals today has status `expiring` (`expired` requires the expiry
to be strictly before today), and at the upper boundary an expiry date
exactly 30 days after today also yields `expiring`. -/
theorem c3_amended (e t : Date) :
    (dayNumber e = dayNumber t → permitStatus true e t = "expiring") ∧
    (dayNumber e = dayNumber t + 30 → permitStatus true e t = "expiring") := by
  constructor <;> intro h <;> simp [permitStatus, daysDiff, h]

/-- Witness for `c3_amended` at concrete dates. -/
theorem c3_amended_witness :
    permitStatus true ⟨2025, 7, 1⟩ ⟨2025, 7, 1⟩ = "expiring" ∧
    permitStatus true ⟨2025, 7, 15⟩ ⟨2025, 6, 15⟩ = "expiring" :=
  ⟨(c3_amended ⟨2025, 7, 1⟩ ⟨2025, 7, 1⟩).1 (by decide),
   (c3_amended ⟨2025, 7, 15⟩ ⟨2025, 6, 15⟩).2 (by decide)⟩

/-- The extraction record of claim C4: Fire Safety Permit issued
2024-01-01 with no expiry date. -/
def fireSafetyRecord : ExtractedData :=
  { license_type := some "Fire Safety Permit",
    issue_date := some "2024-01-01",
    expiry_date := none }

/-- C4 counterexample: the policy fallback does not produce 2027-01-01
for this record — 2024 is a leap year, so `2024-01-01 + 1095 days` is
2026-12-31. -/
theorem c4_counterexample :
    (apply_policy_fallback fireSafetyRecord).expiry_date ≠ some "2027-01-01" := by
  decide

/-- C4 as amended: after the policy-fallback stage the record's expiry
date is `2026-12-31` (the issue date plus the 1095-day FIRE SAFETY
policy duration), and the inference notes mention "FIRE SAFETY". -/
theorem c4_amended :
    (apply_policy_fallback fireSafetyRecord).expiry_date = some "2026-12-31" ∧
    strContains ((apply_policy_fallback fireSafetyRecord).inference_notes.getD "")
      "FIRE SAFETY" = true := by
  decide

/-- The record parsed from a model response that is valid JSON but
contains no usable fields (`{}`): every field absent. -/
def emptyParsedRecord : ExtractedData := {}

/-- C8 counterexample: a transient extraction-call failure produces
exactly the same result shape as a successfully parsed but empty
extraction — the same record type with `needs_review = true` and every
field null — differing only in the free-text `inference_notes`; there is
no distinct `ExtractionCallFailed` outcome. -/
theorem c8_counterexample :
    (extract_data_with_ai_failure "Connection error").needs_review
      = (extract_post_parse emptyParsedRecord none none none "image").needs_review ∧
    (extract_data_with_ai_failure "Connection error").license_type
      = (extract_post_parse emptyParsedRecord none none none "image").license_type ∧
    (extract_data_with_ai_failure "Connection error").license_no
      = (extract_post_parse emptyParsedRecord none none none "image").license_no ∧
    (extract_data_with_ai_failure "Connection error").issue_date
      = (extract_post_parse emptyParsedRecord none none none "image").issue_date ∧
    (extract_data_with_ai_failure "Connection error").expiry_date
      = (extract_post_parse emptyParsedRecord none none none "image").expiry_date ∧
    (extract_data_with_ai_failure "Connection error").issued_by
      = (extract_post_parse emptyParsedRecord none none none "image").issued_by ∧
    (extract_data_with_ai_failure "Connection error").renewal_url
      = (extract_post_parse emptyParsedRecord none none none "image").renewal_url ∧
    (extract_data_with_ai_failure "Connection error").inference_notes
      ≠ (extract_post_parse emptyParsedRecord none none none "image").inference_notes := by
  decide

/-- C8 as amended: a transient call failure is caught and surfaced as an
ordinary `needs_review` extraction record with all fields null and
inference notes `"Extraction failed: <error>"`; a parsed-but-empty
extraction yields the same shape with notes `"Expiry date not found;
please enter manually"`, so the two are distinguishable only by the
notes text, not by a distinct outcome. -/
theorem c8_amended (errMsg : String) :
    (extract_data_with_ai_failure errMsg).needs_review = true ∧
    (extract_data_with_ai_failure errMsg).expiry_date = none ∧
    (extract_data_with_ai_failure errMsg).license_type = none ∧
    (extract_data_with_ai_failure errMsg).license_no = none ∧
    (extract_data_with_ai_failure errMsg).issue_date = none ∧
    (extract_data_with_ai_failure errMsg).issued_by = none ∧
    (extract_data_with_ai_failure errMsg).renewal_url = none ∧
    (extract_data_with_ai_failure errMsg).inference_notes
      = some ("Extraction failed: " ++ errMsg) ∧
    (extract_post_parse emptyParsedRecord none none none "image").needs_review = true ∧
    (extract_post_parse emptyParsedRecord none none none "image").inference_notes
      = some "Expiry date not found; please enter manually" := by
  refine ⟨rfl, rfl, rfl, rfl, rfl, rfl, rfl, rfl, by decide, by decide⟩

/- ### C5: the renewal-URL override -/

lemma policyLoop_preserves (d : ExtractedData) (lt : String) (L : List (String × Nat)) :
    (policyLoop d lt L).license_type = d.license_type ∧
    (policyLoop d lt L).renewal_url = d.renewal_url := by
  induction L with
  | nil => exact ⟨rfl, rfl⟩
  | cons kv rest ih =>
    unfold policyLoop
    split
    · split
      · exact ⟨rfl, rfl⟩
      · exact ih
    · exact ih

lemma apply_policy_fallback_preserves (d : ExtractedData) :
    (apply_policy_fallback d).license_type = d.license_type ∧
    (apply_policy_fallback d).renewal_url = d.renewal_url := by
  unfold apply_policy_fallback
  split
  · exact ⟨rfl, rfl⟩
  split
  · exact ⟨rfl, rfl⟩
  · exact policyLoop_preserves d _ PERMIT_POLICY

lemma heuristicBackfill_preserves (d : ExtractedData) (raw hExp hIss : Option String) :
    (heuristicBackfill d raw hExp hIss).license_type = d.license_type ∧
    (heuristicBackfill d raw hExp hIss).renewal_url = d.renewal_url := by
  unfold heuristicBackfill
  dsimp only
  split <;> split <;> exact ⟨rfl, rfl⟩

lemma lookupUrl_nonempty (lt : String) (L : List (String × String))
    (hL : ∀ p ∈ L, p.2.isEmpty = false) :
    ∀ u, lookupUrl lt L = some u → u.isEmpty = false := by
  induction L with
  | nil => intro u h; simp [lookupUrl] at h
  | cons p rest ih =>
    intro u h
    unfold lookupUrl at h
    split at h
    · cases h; exact hL p (by simp)
    · exact ih (fun q hq => hL q (by simp [hq])) u h

set_option maxRecDepth 8192 in
lemma renewal_url_mapping_nonempty :
    ∀ p ∈ RENEWAL_URL_MAPPING, p.2.isEmpty = false := by decide

set_option maxRecDepth 8192 in
lemma assign_renewal_url_nonempty (license_type : Option String) (u : String)
    (h : assign_renewal_url_based_on_type license_type = some u) :
    u.isEmpty = false := by
  unfold assign_renewal_url_based_on_type at h
  dsimp only at h
  rcases hm : lookupUrl (strUpper (pyOr license_type "")) RENEWAL_URL_MAPPING with _ | v
  · rw [hm] at h
    dsimp only at h
    split_ifs at h
    all_goals (injection h with h; subst h; decide)
  · rw [hm] at h
    dsimp only at h
    injection h with h
    subst h
    exact lookupUrl_nonempty _ RENEWAL_URL_MAPPING renewal_url_mapping_nonempty _ hm

lemma finalUrlSafetyCheck_fixed (d : ExtractedData)
    (h : d.renewal_url = assign_renewal_url_based_on_type d.license_type) :
    finalUrlSafetyCheck d = d := by
  unfold finalUrlSafetyCheck
  split
  case isTrue hc =>
    split
    case h_1 u heq =>
      rw [h, heq] at hc
      have := assign_renewal_url_nonempty d.license_type u heq
      simp [truthy, this] at hc
    case h_2 => rfl
  case isFalse => rfl

lemma finalizeReview_renewal_url (d : ExtractedData) (path : String) :
    (finalizeReview d path).renewal_url = d.renewal_url := by
  unfold finalizeReview
  dsimp only
  split <;> split <;> rfl

/-- C5: for every parsed model response (and every possible heuristic
outcome), the pipeline unconditionally replaces the model-proposed
`renewal_url` with the output of the code-owned keyword classifier
applied to the license type (uppercased inside the classifier; no
keyword match yields `none`); in particular, for license type
"Motor Vehicle Repair" the final record's renewal URL is the fixed
motor-vehicle portal URL whatever URL the model proposed. -/
theorem c5_renewal_url_override (d0 : ExtractedData) (raw hExp hIss : Option String)
    (path : String) :
    (extract_post_parse d0 raw hExp hIss path).renewal_url
      = assign_renewal_url_based_on_type d0.license_type ∧
    (d0.license_type = some "Motor Vehicle Repair" →
      (extract_post_parse d0 raw hExp hIss path).renewal_url = some eclipseUrl) := by
  have main : (extract_post_parse d0 raw hExp hIss path).renewal_url
      = assign_renewal_url_based_on_type d0.license_type := by
    unfold extract_post_parse
    dsimp only
    rw [finalizeReview_renewal_url]
    have h3 := heuristicBackfill_preserves
      { d0 with renewal_url := assign_renewal_url_based_on_type d0.license_type }
      raw hExp hIss
    have h4 := apply_policy_fallback_preserves
      (heuristicBackfill
        { d0 with renewal_url := assign_renewal_url_based_on_type d0.license_type }
        raw hExp hIss)
    have hurl : (apply_policy_fallback (heuristicBackfill
        { d0 with renewal_url := assign_renewal_url_based_on_type d0.license_type }
        raw hExp hIss)).renewal_url
        = assign_renewal_url_based_on_type d0.license_type := by
      rw [h4.2, h3.2]
    have hlt : (apply_policy_fallback (heuristicBackfill
        { d0 with renewal_url := assign_renewal_url_based_on_type d0.license_type }
        raw hExp hIss)).license_type = d0.license_type := by
      rw [h4.1, h3.1]
    rw [finalUrlSafetyCheck_fixed _ (by rw [hurl, hlt]), hurl]
  refine ⟨main, fun hmv => ?_⟩
  rw [main, hmv]
  decide

/-- Witness for `c5_renewal_url_override`: the motor-vehicle clause at a
concrete record whose model-proposed URL is a bogus one. -/
theorem c5_renewal_url_override_witness :
    (extract_post_parse
      { license_type := some "Motor Vehicle Repair",
        renewal_url := some "https://example.com/bogus",
        expiry_date := some "2025-01-01" }
      none none none "image").renewal_url = some eclipseUrl :=
  (c5_renewal_url_override
    { license_type := some "Motor Vehicle Repair",
      renewal_url := some "https://example.com/bogus",
      expiry_date := some "2025-01-01" }
    none none none "image").2 rfl

/- ### C6/C7: renewal semantics -/

/-- Is a renewal response the needs-review suggestion payload? -/
def isNeedsReviewRenew : RenewResponse → Bool
  | .needsReview _ _ _ => true
  | _ => false

/-- Is an upload response the needs-review suggestion payload? -/
def isNeedsReviewUpload : UploadResponse → Bool
  | .needsReview _ _ => true
  | _ => false

/-- C6: a renew request whose extraction needs review returns the
suggestion payload and leaves the store — every field of the existing
permit row and the whole history table — exactly as it was. -/
theorem c6_renew_needs_review_frame (s : Store) (pid : Nat) (d : ExtractedData)
    (fname : String) (p : PermitRow)
    (hfind : s.permits.find? (fun q => q.id == pid) = some p)
    (hnr : d.needs_review = true) :
    renewPermit s pid d fname
      = (.needsReview (d.inference_notes.getD "Some fields could not be extracted") pid
          (renewSuggested d p), s) := by
  unfold renewPermit
  rw [hfind]
  dsimp only
  simp [hnr]

/-- A concrete stored permit used by witnesses. -/
def tobaccoPermit : PermitRow :=
  { id := 1, name := "Tobacco Retail", number := "TOB-2024-5",
    issue_date := some ⟨2024, 1, 10⟩, expiry_date := some ⟨2025, 1, 10⟩,
    issued_by := "State Tax Board", renewal_url := some mypathUrl,
    document := "orig.pdf", facility := 7, is_active := true }

/-- A store holding just `tobaccoPermit`. -/
def baseStore : Store := ⟨[tobaccoPermit], []⟩

/-- An extraction result that needs review. -/
def reviewNeededRecord : ExtractedData :=
  { needs_review := true,
    inference_notes := some "Expiry date not found; please enter manually" }

/-- Witness for `c6_renew_needs_review_frame` on a concrete store. -/
theorem c6_renew_needs_review_frame_witness :
    renewPermit baseStore 1 reviewNeededRecord "renewal.pdf"
      = (.needsReview (reviewNeededRecord.inference_notes.getD
            "Some fields could not be extracted") 1
          (renewSuggested reviewNeededRecord tobaccoPermit), baseStore) :=
  c6_renew_needs_review_frame baseStore 1 reviewNeededRecord "renewal.pdf" tobaccoPermit
    (by decide) rfl

lemma renewIssueDate_not_null (d : ExtractedData) (p : PermitRow)
    (h : p.issue_date ≠ none) : renewIssueDate d p ≠ none := by
  unfold renewIssueDate
  split
  · split
    · simp
    · exact h
  · exact h

lemma renewExpiryDate_not_null (d : ExtractedData) (p : PermitRow)
    (h : p.expiry_date ≠ none) : renewExpiryDate d p ≠ none := by
  unfold renewExpiryDate
  split
  · split
    · simp
    · exact h
  · exact h

lemma pyOrOpt_not_null (a b : Option String) (h : b ≠ none) : pyOrOpt a b ≠ none := by
  unfold pyOrOpt
  split
  · rename_i ht
    cases a with
    | none => simp [truthy] at ht
    | some v => simp
  · exact h

/-- C7: on an accepted renewal (no review needed, permit found, no
number collision) the updated row carries, for each of `number`,
`issue_date`, `expiry_date`, `issued_by` and `renewal_url`, the newly
extracted value when the extraction determined a usable one and the
permit's prior value otherwise; none of these fields is nulled by the
renewal. -/
theorem c7_renew_field_fallback (s : Store) (pid : Nat) (d : ExtractedData)
    (fname : String) (p q : PermitRow)
    (hfind : s.permits.find? (fun r => r.id == pid) = some p)
    (hnr : d.needs_review = false)
    (hcol : s.permits.any (fun r => r.id != pid && r.number == renewNewNumber d p) = false)
    (hq : q ∈ (renewPermit s pid d fname).2.permits) (hqid : q.id = pid) :
    q.number = renewNewNumber d p ∧
    q.issue_date = renewIssueDate d p ∧
    q.expiry_date = renewExpiryDate d p ∧
    q.issued_by = pyOr d.issued_by p.issued_by ∧
    q.renewal_url = pyOrOpt d.renewal_url p.renewal_url ∧
    (p.issue_date ≠ none → q.issue_date ≠ none) ∧
    (p.expiry_date ≠ none → q.expiry_date ≠ none) ∧
    (p.renewal_url ≠ none → q.renewal_url ≠ none) := by
  unfold renewPermit at hq
  rw [hfind] at hq
  dsimp only at hq
  rw [hnr] at hq
  simp only [Bool.false_eq_true, if_false] at hq
  rw [hcol] at hq
  simp only [Bool.false_eq_true, if_false] at hq
  rw [List.mem_map] at hq
  obtain ⟨r, hr, rfl⟩ := hq
  by_cases hid : (r.id == pid) = true
  · rw [if_pos hid]
    refine ⟨rfl, rfl, rfl, rfl, rfl, ?_, ?_, ?_⟩
    · exact fun h => renewIssueDate_not_null d p h
    · exact fun h => renewExpiryDate_not_null d p h
    · exact fun h => pyOrOpt_not_null d.renewal_url p.renewal_url h
  · exfalso
    rw [if_neg hid] at hqid
    exact hid (by simp [hqid])

/-- An accepted renewal extraction carrying a new number and expiry. -/
def acceptedRenewalRecord : ExtractedData :=
  { license_no := some "TOB-2025-9",
    expiry_date := some "2026-01-10",
    needs_review := false }

/-- The row `tobaccoPermit` becomes after the accepted renewal. -/
def renewedTobaccoRow : PermitRow :=
  { tobaccoPermit with
    number := "TOB-2025-9",
    expiry_date := some ⟨2026, 1, 10⟩,
    document := "renewal.pdf" }

/-- Witness for `c7_renew_field_fallback` on a concrete store: the
updated row keeps the prior issue date, issuer and renewal URL and takes
the new number and expiry. -/
theorem c7_renew_field_fallback_witness :
    renewedTobaccoRow.number = renewNewNumber acceptedRenewalRecord tobaccoPermit ∧
    renewedTobaccoRow.issue_date = renewIssueDate acceptedRenewalRecord tobaccoPermit ∧
    renewedTobaccoRow.expiry_date = renewExpiryDate acceptedRenewalRecord tobaccoPermit ∧
    renewedTobaccoRow.issued_by
      = pyOr acceptedRenewalRecord.issued_by tobaccoPermit.issued_by ∧
    renewedTobaccoRow.renewal_url
      = pyOrOpt acceptedRenewalRecord.renewal_url tobaccoPermit.renewal_url ∧
    (tobaccoPermit.issue_date ≠ none → renewedTobaccoRow.issue_date ≠ none) ∧
    (tobaccoPermit.expiry_date ≠ none → renewedTobaccoRow.expiry_date ≠ none) ∧
    (tobaccoPermit.renewal_url ≠ none → renewedTobaccoRow.renewal_url ≠ none) :=
  c7_renew_field_fallback baseStore 1 acceptedRenewalRecord "renewal.pdf" tobaccoPermit
    renewedTobaccoRow (by decide) rfl (by decide) (by decide) (by decide)

/- ### C1: the review gate in front of persistence -/

/-- Every permit row in the store has a non-null expiry date (the NOT
NULL column constraint of `Permit.expiry_date`). -/
def expiryNotNull (s : Store) : Prop := ∀ p ∈ s.permits, p.expiry_date ≠ none

lemma uploadPost_shape (s : Store) (d : ExtractedData) (facility : Nat) (fname : String) :
    (uploadPost s d facility fname).2 = s ∨
    ∃ row, (uploadPost s d facility fname).2.permits = s.permits ++ [row] ∧
      row.id = nextId s.permits ∧
      (∃ e, row.expiry_date = some e) ∧
      s.permits.any (fun p => p.number == row.number) = false := by
  unfold uploadPost createPermit
  split
  · left; rfl
  · dsimp only
    split
    · split
      · left; rfl
      · split
        · left; rfl
        · rename_i hcol
          right
          exact ⟨_, rfl, rfl, ⟨_, rfl⟩, Bool.not_eq_true _ ▸ Bool.of_not_eq_true hcol⟩
    · left; rfl

lemma renewPermit_store_shape (s : Store) (pid : Nat) (d : ExtractedData) (fname : String) :
    (renewPermit s pid d fname).2 = s ∨
    ∃ p, s.permits.find? (fun q => q.id == pid) = some p ∧
      s.permits.any (fun q => q.id != pid && q.number == renewNewNumber d p) = false ∧
      (renewPermit s pid d fname).2.permits
        = s.permits.map (fun q => if q.id == pid then
            { q with
              number := renewNewNumber d p,
              issue_date := renewIssueDate d p,
              expiry_date := renewExpiryDate d p,
              issued_by := pyOr d.issued_by p.issued_by,
              renewal_url := pyOrOpt d.renewal_url p.renewal_url,
              document := fname,
              is_active := true } else q) := by
  unfold renewPermit
  rcases hf : s.permits.find? (fun q => q.id == pid) with _ | p
  · rw [hf]; left; rfl
  · rw [hf]
    dsimp only
    split
    · left; rfl
    · split
      · left; rfl
      · rename_i hcol
        right
        exact ⟨p, rfl, Bool.of_not_eq_true hcol, rfl⟩

lemma uploadPost_preserves_expiryNotNull (s : Store) (d : ExtractedData)
    (facility : Nat) (fname : String) (hok : expiryNotNull s) :
    expiryNotNull (uploadPost s d facility fname).2 := by
  rcases uploadPost_shape s d facility fname with h | ⟨row, hperm, _, ⟨e, he⟩, _⟩
  · rw [h]; exact hok
  · intro p hp
    rw [hperm] at hp
    rcases List.mem_append.mp hp with h1 | h1
    · exact hok p h1
    · rcases List.mem_singleton.mp h1 with rfl
      rw [he]; exact Option.some_ne_none e

lemma renewPermit_preserves_expiryNotNull (s : Store) (pid : Nat) (d : ExtractedData)
    (fname : String) (hok : expiryNotNull s) :
    expiryNotNull (renewPermit s pid d fname).2 := by
  rcases renewPermit_store_shape s pid d fname with h | ⟨p, hf, _, hperm⟩
  · rw [h]; exact hok
  · intro q hq
    rw [hperm] at hq
    rcases List.mem_map.mp hq with ⟨r, hr, rfl⟩
    split
    · exact renewExpiryDate_not_null d p
        (hok p (List.mem_of_find?_eq_some hf))
    · exact hok r hr

/-- C1 counterexample: a renew request whose extraction was accepted
(`needs_review=false`) but whose expiry-date string does not parse as a
`YYYY-MM-DD` date does NOT return the needs-review suggestion payload
and DOES write to storage (it keeps the prior expiry and persists the
update plus a history row) — refuting the claim's gating for the renew
operation. -/
theorem c1_counterexample :
    isNeedsReviewRenew (renewPermit baseStore 1
      { expiry_date := some "NOT-A-DATE", needs_review := false } "renewal.pdf").1 = false ∧
    (renewPermit baseStore 1
      { expiry_date := some "NOT-A-DATE", needs_review := false } "renewal.pdf").2
      ≠ baseStore := by
  decide

/-- C1 as amended: persisted expiry dates are never null, and the
review gate works as claimed for the Create path; for the renew path
only `needs_review=true` (equivalently, a missing expiry) blocks the
write — an unparseable expiry string is ignored there and the prior
(non-null) expiry is kept.  Precisely: (1) on upload, if the extraction
needs review, or its expiry string is absent, or it fails to parse, the
view returns the suggestion payload and leaves the store untouched;
(2) on renew, a needs-review extraction leaves the store untouched;
(3,4) both operations preserve "every stored row has a non-null
expiry". -/
theorem c1_amended (s : Store) (d : ExtractedData) (facility pid : Nat) (fname : String)
    (hok : expiryNotNull s) :
    ((d.needs_review = true ∨ truthy d.expiry_date = false
        ∨ parseDate (d.expiry_date.getD "") = none) →
      isNeedsReviewUpload (uploadPost s d facility fname).1 = true ∧
      (uploadPost s d facility fname).2 = s) ∧
    (d.needs_review = true → (renewPermit s pid d fname).2 = s) ∧
    expiryNotNull (uploadPost s d facility fname).2 ∧
    expiryNotNull (renewPermit s pid d fname).2 := by
  refine ⟨?_, ?_, uploadPost_preserves_expiryNotNull s d facility fname hok,
    renewPermit_preserves_expiryNotNull s pid d fname hok⟩
  · intro hcond
    unfold uploadPost
    rcases hnr : d.needs_review with _ | _
    · simp only [hnr, Bool.false_eq_true, if_false]
      rcases ht : truthy d.expiry_date with _ | _
      · simp [ht, isNeedsReviewUpload]
      · have hp : parseDate (d.expiry_date.getD "") = none := by
          rcases hcond with h | h | h
          · rw [hnr] at h; exact absurd h (by simp)
          · rw [ht] at h; exact absurd h (by simp)
          · exact h
        simp [ht, hp, isNeedsReviewUpload]
    · simp [hnr, isNeedsReviewUpload]
  · intro hnr
    unfold renewPermit
    rcases hf : s.permits.find? (fun q => q.id == pid) with _ | p
    · rw [hf]
    · rw [hf]
      dsimp only
      simp [hnr]

/-- Witness for `c1_amended` on a concrete store and a needs-review
extraction. -/
theorem c1_amended_witness :
    (isNeedsReviewUpload (uploadPost baseStore reviewNeededRecord 7 "a.pdf").1 = true ∧
      (uploadPost baseStore reviewNeededRecord 7 "a.pdf").2 = baseStore) ∧
    (renewPermit baseStore 1 reviewNeededRecord "a.pdf").2 = baseStore ∧
    expiryNotNull (uploadPost baseStore reviewNeededRecord 7 "a.pdf").2 ∧
    expiryNotNull (renewPermit baseStore 1 reviewNeededRecord "a.pdf").2 := by
  have h := c1_amended baseStore reviewNeededRecord 7 1 "a.pdf"
    (by unfold expiryNotNull; decide)
  exact ⟨h.1 (Or.inl rfl), h.2.1 rfl, h.2.2.1, h.2.2.2⟩

/- ### C10: stats -/

lemma status_partition (l : List PermitRow) (today : Date)
    (h : ∀ p ∈ l, p.is_active = true ∧ p.expiry_date ≠ none) :
    l.length = (l.filter (fun p => rowStatus p today == some "active")).length
      + (l.filter (fun p => rowStatus p today == some "expiring")).length
      + (l.filter (fun p => rowStatus p today == some "expired")).length := by
  induction l with
  | nil => simp
  | cons p t ih =>
    obtain ⟨ha, he⟩ := h p (List.mem_cons_self p t)
    have ht := ih (fun q hq => h q (List.mem_cons_of_mem p hq))
    obtain ⟨e, hee⟩ := Option.ne_none_iff_exists'.mp he
    have hst : rowStatus p today = some (permitStatus true e today) := by
      unfold rowStatus
      rw [ha, hee]
      simp
    have tri : permitStatus true e today = "expired"
        ∨ permitStatus true e today = "expiring"
        ∨ permitStatus true e today = "active" := by
      unfold permitStatus
      by_cases h1 : daysDiff e today < 0
      · simp [h1]
      · by_cases h2 : daysDiff e today ≤ 30
        · simp [h1, h2]
        · simp [h1, h2]
    rcases tri with h1 | h1 | h1 <;> simp [List.filter_cons, hst, h1, ht] <;> omega

/-- C10: the stats operation counts only active permits, so its total
equals `active + expiring + expired` (assuming the stored rows respect
the NOT NULL expiry constraint), and permits with `is_active = false`
(the `superseded` ones) contribute to none of the four counts: the stats
over any store equal the stats over its active rows only. -/
theorem c10_stats_consistency (permits : List PermitRow) (facility : Option Nat)
    (today : Date)
    (h : ∀ p ∈ permits, p.is_active = true → p.expiry_date ≠ none) :
    (permit_stats permits facility today).total
      = (permit_stats permits facility today).active
        + (permit_stats permits facility today).expiring
        + (permit_stats permits facility today).expired ∧
    permit_stats permits facility today
      = permit_stats (permits.filter (fun p => p.is_active)) facility today := by
  constructor
  · unfold permit_stats
    cases facility with
    | none =>
      dsimp only
      apply status_partition
      intro p hp
      have hm := List.mem_filter.mp hp
      exact ⟨hm.2, h p hm.1 hm.2⟩
    | some f =>
      dsimp only
      apply status_partition
      intro p hp
      obtain ⟨hp2, _⟩ := List.mem_filter.mp hp
      obtain ⟨hp3, hact⟩ := List.mem_filter.mp hp2
      exact ⟨hact, h p hp3 hact⟩
  · unfold permit_stats
    cases facility <;> simp [List.filter_filter]

/-- Witness for `c10_stats_consistency` on a concrete store. -/
theorem c10_stats_consistency_witness :
    (permit_stats baseStore.permits none ⟨2025, 1, 1⟩).total
      = (permit_stats baseStore.permits none ⟨2025, 1, 1⟩).active
        + (permit_stats baseStore.permits none ⟨2025, 1, 1⟩).expiring
        + (permit_stats baseStore.permits none ⟨2025, 1, 1⟩).expired ∧
    permit_stats baseStore.permits none ⟨2025, 1, 1⟩
      = permit_stats (baseStore.permits.filter (fun p => p.is_active)) none ⟨2025, 1, 1⟩ :=
  c10_stats_consistency baseStore.permits none ⟨2025, 1, 1⟩ (by decide)

/- ### C9: global uniqueness of `Permit.number` -/

lemma le_foldr_max (n : Nat) (l : List Nat) (h : n ∈ l) : n ≤ l.foldr max 0 := by
  induction l with
  | nil => simp at h
  | cons m t ih =>
    rcases List.mem_cons.mp h with rfl | h
    · exact Nat.le_max_left _ _
    · exact Nat.le_trans (ih h) (Nat.le_max_right _ _)

lemma nextId_fresh (l : List PermitRow) : ∀ p ∈ l, p.id ≠ nextId l := by
  intro p hp heq
  have h1 : p.id ≤ (l.map (fun p => p.id)).foldr max 0 :=
    le_foldr_max p.id _ (List.mem_map_of_mem _ hp)
  rw [heq] at h1
  unfold nextId at h1
  omega

lemma map_eq_self_of {α : Type} (l : List α) (f : α → α) (h : ∀ a ∈ l, f a = a) :
    l.map f = l := by
  induction l with
  | nil => rfl
  | cons a t ih =>
    simp only [List.map_cons]
    rw [h a (List.mem_cons_self a t), ih (fun b hb => h b (List.mem_cons_of_mem a hb))]

lemma nodup_map_update (l : List PermitRow) (pid : Nat) (g : PermitRow → PermitRow)
    (newNum : String)
    (hgid : ∀ q, (g q).id = q.id)
    (hgnum : ∀ q, q.id = pid → (g q).number = newNum)
    (hgfix : ∀ q, q.id ≠ pid → g q = q)
    (hids : (l.map (fun p => p.id)).Nodup)
    (hnums : (l.map (fun p => p.number)).Nodup)
    (hguard : ∀ q ∈ l, q.id ≠ pid → q.number ≠ newNum) :
    ((l.map g).map (fun p => p.id)).Nodup ∧ ((l.map g).map (fun p => p.number)).Nodup := by
  constructor
  · rw [List.map_map]
    have : l.map ((fun p => p.id) ∘ g) = l.map (fun p => p.id) :=
      List.map_congr_left (fun a _ => hgid a)
    rw [this]
    exact hids
  · induction l with
    | nil => simp
    | cons a t ih =>
      simp only [List.map_cons, List.nodup_cons] at hids hnums ⊢
      obtain ⟨haid, hids_t⟩ := hids
      obtain ⟨hanum, hnums_t⟩ := hnums
      by_cases ha : a.id = pid
      · have hterr : ∀ q ∈ t, q.id ≠ pid := by
          intro q hq hqe
          apply haid
          have hae : a.id = q.id := by rw [ha, hqe]
          rw [hae]
          exact List.mem_map_of_mem _ hq
        have htfix : t.map g = t := map_eq_self_of t g (fun q hq => hgfix q (hterr q hq))
        constructor
        · rw [hgnum a ha, htfix]
          intro hmem
          rcases List.mem_map.mp hmem with ⟨q, hq, hqn⟩
          exact hguard q (List.mem_cons_of_mem a hq) (hterr q hq) hqn
        · rw [htfix]
          exact hnums_t
      · rw [hgfix a ha]
        constructor
        · intro hmem
          rcases List.mem_map.mp hmem with ⟨x, hx, hxn⟩
          rcases List.mem_map.mp hx with ⟨q, hq, rfl⟩
          by_cases hqid : q.id = pid
          · rw [hgnum q hqid] at hxn
            exact hguard a (List.mem_cons_self a t) ha hxn.symm
          · rw [hgfix q hqid] at hxn
            exact hanum (hxn ▸ List.mem_map_of_mem (fun p => p.number) hq)
        · exact ih hids_t hnums_t
            (fun q hq => hguard q (List.mem_cons_of_mem a hq))

lemma reachable_invariant (s : Store) (h : Reachable s) :
    (s.permits.map (fun p => p.id)).Nodup ∧ (s.permits.map (fun p => p.number)).Nodup := by
  induction h with
  | empty => simp
  | upload s' d facility fname hs ih =>
    rcases uploadPost_shape s' d facility fname with heq | ⟨row, hperm, hid, _, hnum⟩
    · rw [heq]; exact ih
    · rw [hperm]
      have hnum' : ∀ p ∈ s'.permits, p.number ≠ row.number := by
        intro p hp heq2
        have hany : s'.permits.any (fun p => p.number == row.number) = true :=
          List.any_eq_true.mpr ⟨p, hp, by simp [heq2]⟩
        rw [hnum] at hany
        exact Bool.false_ne_true hany
      constructor
      · rw [List.map_append, List.nodup_append]
        refine ⟨ih.1, by simp, ?_⟩
        simp only [List.map_cons, List.map_nil]
        rw [List.disjoint_singleton]
        intro hmem
        rcases List.mem_map.mp hmem with ⟨p, hp, hpe⟩
        exact nextId_fresh s'.permits p hp (by rw [hpe, hid])
      · rw [List.map_append, List.nodup_append]
        refine ⟨ih.2, by simp, ?_⟩
        simp only [List.map_cons, List.map_nil]
        rw [List.disjoint_singleton]
        intro hmem
        rcases List.mem_map.mp hmem with ⟨p, hp, hpe⟩
        exact hnum' p hp hpe
  | renew s' pid d fname hs ih =>
    rcases renewPermit_store_shape s' pid d fname with heq | ⟨p, hf, hguard, hperm⟩
    · rw [heq]; exact ih
    · rw [hperm]
      have hguard' : ∀ q ∈ s'.permits, q.id ≠ pid → q.number ≠ renewNewNumber d p := by
        intro q hq hqid heq2
        have hany : s'.permits.any
            (fun q => q.id != pid && q.number == renewNewNumber d p) = true :=
          List.any_eq_true.mpr ⟨q, hq, by simp [hqid, heq2]⟩
        rw [hguard] at hany
        exact Bool.false_ne_true hany
      exact nodup_map_update s'.permits pid _ (renewNewNumber d p)
        (fun q => by split <;> rfl)
        (fun q hq => by rw [if_pos (by simp [hq])])
        (fun q hq => by rw [if_neg (by simp [hq])])
        ih.1 ih.2 hguard'
  | destroy s' pid hs ih =>
    exact ⟨List.Nodup.sublist ((List.filter_sublist _).map _) ih.1,
      List.Nodup.sublist ((List.filter_sublist _).map _) ih.2⟩

/-- C9 counterexample (proof of the claim's negation): there is NO
reachable store state containing two distinct permit rows with the same
`number` — the column is declared `unique=True`, and every write path
(create, renew, delete) preserves pairwise-distinct numbers, the
database constraint rejecting any colliding insert or update. -/
theorem c9_counterexample :
    ¬ ∃ s, Reachable s ∧ ∃ p ∈ s.permits, ∃ q ∈ s.permits, p ≠ q ∧ p.number = q.number := by
  rintro ⟨s, hs, p, hp, q, hq, hne, hnum⟩
  exact hne (List.inj_on_of_nodup_map (reachable_invariant s hs).2 hp hq hnum)

/-- C9 as amended: `Permit.number` IS globally unique across permit
rows (`unique=True` on the column): every reachable store state has
pairwise-distinct numbers.  Numbers are only "not unique" in the sense
that a renewal may change the number carried by one row over time. -/
theorem c9_amended (s : Store) (h : Reachable s) :
    (s.permits.map (fun p => p.number)).Nodup :=
  (reachable_invariant s h).2

/-- Witness for `c9_amended`: a concrete reachable store (one accepted
upload applied to the empty store). -/
theorem c9_amended_witness :
    (((uploadPost ⟨[], []⟩ acceptedRenewalRecord 7 "a.pdf").2).permits.map
      (fun p => p.number)).Nodup :=
  c9_amended _ (Reachable.upload _ _ _ _ Reachable.empty)

end Permits
